import Mathlib

/-!
Verification development for the database layer of the JORGE-FREITAS
repository (`src/database/`): the schema-migration engine
(`migrations.py`), the Redis cache-aside layer (`cache.py`), the
repository layer (`repositories.py`) and the health/stats utilities
(`utils.py`).

The Python code is shallowly embedded: every store- or cache-touching
method becomes a pure Lean function over an explicit state value, with
the environment (connectivity, SQL success) passed in as data.
Timestamps are modelled as natural-number ticks, UUIDs as naturals,
Python floats as rationals, and JSON blobs as the inductive `JVal`.
-/

set_option maxRecDepth 4000

/-! ## JSON values and serialization

Models the Python `json` module as used by `cache.py`: `json.dumps`
(optionally with `sort_keys=True`) renders a structural value to a
string with the default `", "` / `": "` separators.  Numeric leaves are
modelled as integers (the cached payloads the claims touch are
structural, not floating point).  `json.loads` is kept abstract: it is a
parameter `loads : String → Option JVal` wherever `cache.py` calls it,
`none` standing for a `JSONDecodeError`.
-/

/-- A JSON value: the portable structured form `cache.py` serializes. -/
inductive JVal where
  | jnull
  | jbool (b : Bool)
  | jnum (n : Int)
  | jstr (s : String)
  | jarr (xs : List JVal)
  | jobj (kvs : List (String × JVal))
deriving Repr, Inhabited

/-- JSON string escaping of one character (quote and backslash; other
characters are passed through, which is all the repository's keys and
payloads use). -/
def escChar (c : Char) : String :=
  if c = '"' then "\\\"" else if c = '\\' then "\\\\" else String.singleton c

/-- JSON string escaping. -/
def escapeString (s : String) : String :=
  String.join (s.data.map escChar)

/-- A JSON string literal: quoted and escaped. -/
def renderStr (s : String) : String :=
  "\"" ++ escapeString s ++ "\""

/-- Ordering of JSON-object members by key, as `sort_keys=True` orders
them (Python `sorted` on the key strings). -/
def keyLe {β : Type} (a b : String × β) : Prop := a.1 ≤ b.1

instance {β : Type} : DecidableRel (@keyLe β) :=
  fun a b => inferInstanceAs (Decidable (a.1 ≤ b.1))

instance {β : Type} : IsTotal (String × β) keyLe :=
  ⟨fun a b => le_total a.1 b.1⟩

instance {β : Type} : IsTrans (String × β) keyLe :=
  ⟨fun _ _ _ h1 h2 => le_trans h1 h2⟩

/-- Sort an association list of JSON-object members by key (the
`sort_keys=True` ordering). -/
def sortPairs {β : Type} (l : List (String × β)) : List (String × β) :=
  List.insertionSort keyLe l

/-- Comma-join the rendered members of a JSON object, with the default
`json.dumps` separators. -/
def joinPairs (l : List (String × String)) : String :=
  String.intercalate ", " (l.map (fun kv => renderStr kv.1 ++ ": " ++ kv.2))

mutual

/-- `json.dumps(v, sort_keys=sk)`: render a `JVal` to its JSON text.
Object members are rendered in insertion order, then ordered by key when
`sk` is true (sorting the key-tagged rendered members is order-equivalent
to Python's sorting the keys before rendering, since rendering a member
neither reads nor changes its key). -/
def renderV (sk : Bool) : JVal → String
  | .jnull => "null"
  | .jbool true => "true"
  | .jbool false => "false"
  | .jnum n => toString n
  | .jstr s => renderStr s
  | .jarr xs => "[" ++ renderArr sk xs ++ "]"
  | .jobj kvs =>
      "\x7b" ++ joinPairs (if sk then sortPairs (renderObj sk kvs) else renderObj sk kvs) ++ "\x7d"

/-- Render the elements of a JSON array, comma-separated. -/
def renderArr (sk : Bool) : List JVal → String
  | [] => ""
  | [x] => renderV sk x
  | x :: y :: xs => renderV sk x ++ ", " ++ renderArr sk (y :: xs)

/-- Render each member of a JSON object, keeping its key tag. -/
def renderObj (sk : Bool) : List (String × JVal) → List (String × String)
  | [] => []
  | (k, v) :: kvs => (k, renderV sk v) :: renderObj sk kvs

end

/-- Strict member order by key. -/
def keyLt {β : Type} (a b : String × β) : Prop := a.1 < b.1

instance {β : Type} : IsAntisymm (String × β) keyLt :=
  ⟨fun _ _ h1 h2 => absurd h2 (not_lt_of_lt h1)⟩

/-! ## Redis cache layer (`cache.py`, class `RedisCache`)

The Redis backend is an explicit state: a connectivity flag, the keyed
string payloads, and the per-key TTLs.  `is_connected` models
`self.client` being present and `ping()` succeeding; every operation of
`RedisCache` probes it first, exactly as in the source, and the
`except RedisError` fallbacks of the source are the same safe defaults
the guard returns (in this embedding a connected backend's commands
succeed, so the guard is the only path to the default).
-/

/-- Insert-or-replace in an association list (a Redis key write). -/
def assocSet {β : Type} (l : List (String × β)) (k : String) (v : β) :
    List (String × β) :=
  if l.any (fun kv => kv.1 = k) then
    l.map (fun kv => if kv.1 = k then (k, v) else kv)
  else l ++ [(k, v)]

/-- Lookup in an association list (a Redis key read). -/
def assocGet {β : Type} (l : List (String × β)) (k : String) : Option β :=
  (l.find? (fun kv => kv.1 = k)).map (fun kv => kv.2)

/-- The Redis backend state seen by `RedisCache`. -/
structure RedisState where
  connected : Bool
  store : List (String × String)
  ttls : List (String × Int)
deriving Repr, DecidableEq

/-- Redis glob pattern matching (`KEYS pattern`): `*` matches any
substring, `?` any single character, other characters literally. -/
def globMatch : List Char → List Char → Bool
  | [], [] => true
  | [], _ :: _ => false
  | '*' :: ps, [] => globMatch ps []
  | '*' :: ps, c :: cs => globMatch ps (c :: cs) || globMatch ('*' :: ps) cs
  | '?' :: _, [] => false
  | '?' :: ps, _ :: cs => globMatch ps cs
  | _ :: _, [] => false
  | p :: ps, c :: cs => (p = c) && globMatch ps cs
termination_by p s => (p.length, s.length)

namespace RedisCache

/-- `RedisCache.is_connected`: the client exists and `ping()` succeeds. -/
def is_connected (s : RedisState) : Bool := s.connected

/-- `RedisCache.get`: `None` when disconnected, when the key is absent,
when the payload is falsy (empty string), or when `json.loads` fails. -/
def get (loads : String → Option JVal) (s : RedisState) (key : String) :
    Option JVal :=
  if ¬ is_connected s then none
  else
    match assocGet s.store key with
    | some v => if v = "" then none else loads v
    | none => none

/-- `RedisCache.set`: `SETEX key ttl (json.dumps value)`; `False` and no
write when disconnected. -/
def set (s : RedisState) (key : String) (value : JVal) (ttl : Int) :
    Bool × RedisState :=
  if ¬ is_connected s then (false, s)
  else
    let serialized := renderV false value
    (true, { s with store := assocSet s.store key serialized,
                    ttls := assocSet s.ttls key ttl })

/-- `RedisCache.delete`: whether the key existed; `False` and no write
when disconnected. -/
def delete (s : RedisState) (key : String) : Bool × RedisState :=
  if ¬ is_connected s then (false, s)
  else (s.store.any (fun kv => kv.1 = key),
        { s with store := s.store.filter (fun kv => ¬ kv.1 = key),
                 ttls := s.ttls.filter (fun kv => ¬ kv.1 = key) })

/-- `RedisCache.exists`: key presence; `False` when disconnected. -/
def exists_key (s : RedisState) (key : String) : Bool :=
  if ¬ is_connected s then false
  else s.store.any (fun kv => kv.1 = key)

/-- `RedisCache.expire`: set a TTL on an existing key; `False` when
disconnected or the key is absent. -/
def expire (s : RedisState) (key : String) (ttl : Int) : Bool × RedisState :=
  if ¬ is_connected s then (false, s)
  else if s.store.any (fun kv => kv.1 = key) then
    (true, { s with ttls := assocSet s.ttls key ttl })
  else (false, s)

/-- `RedisCache.get_ttl`: the remaining TTL; `-1` when disconnected
(also Redis's "no expiry" answer), `-2` for an absent key. -/
def get_ttl (s : RedisState) (key : String) : Int :=
  if ¬ is_connected s then -1
  else
    match assocGet s.ttls key with
    | some t => t
    | none => if s.store.any (fun kv => kv.1 = key) then -1 else -2

/-- `RedisCache.clear_pattern`: delete every key matching the glob
pattern, returning how many; `0` when disconnected. -/
def clear_pattern (s : RedisState) (pattern : String) : Nat × RedisState :=
  if ¬ is_connected s then (0, s)
  else
    let keys := (s.store.map (fun kv => kv.1)).filter
      (fun k => globMatch pattern.data k.data)
    if keys.isEmpty then (0, s)
    else (keys.length,
          { s with store := s.store.filter (fun kv => ¬ keys.contains kv.1),
                   ttls := s.ttls.filter (fun kv => ¬ keys.contains kv.1) })

/-- `RedisCache.clear_all`: `FLUSHDB`; `False` when disconnected. -/
def clear_all (s : RedisState) : Bool × RedisState :=
  if ¬ is_connected s then (false, s)
  else (true, { s with store := [], ttls := [] })

end RedisCache

/-! ## High-level cache manager (`cache.py`, class `CacheManager`)

Only the API-response pair is embedded in full: it is the part with a
real invariant (the order-independent key hash).  The MD5 hex digest is
kept abstract as a parameter `md5hex : String → String`; the claims
depend only on it being a function of the serialized parameter string.
-/

/-- `CacheManager.cache_api_response`: derive
`api:{endpoint}:{md5(json.dumps(params, sort_keys=True))}` and `set` the
response under it. -/
def cache_api_response (md5hex : String → String) (s : RedisState)
    (endpoint : String) (params : List (String × JVal)) (response : JVal)
    (ttl : Int) : Bool × RedisState :=
  let param_str := renderV true (JVal.jobj params)
  let cache_key := "api:" ++ endpoint ++ ":" ++ md5hex param_str
  RedisCache.set s cache_key response ttl

/-- `CacheManager.get_cached_api_response`: derive the same key and
`get` it. -/
def get_cached_api_response (md5hex : String → String)
    (loads : String → Option JVal) (s : RedisState) (endpoint : String)
    (params : List (String × JVal)) : Option JVal :=
  let param_str := renderV true (JVal.jobj params)
  let cache_key := "api:" ++ endpoint ++ ":" ++ md5hex param_str
  RedisCache.get loads s cache_key

/-! ## Migration engine (`migrations.py`, class `DatabaseMigration`)

The relational store as the migration engine sees it: connectivity, the
`schema_migrations` ledger table (existence flag plus rows), the entity
tables, and a log of the committed migration SQL scripts.  `readOk`
models any further store-level failure of a ledger `SELECT` (the broad
`except Exception` of `get_applied_migrations` catches more than the
bootstrap missing-table case).  Mutating operations return the state
paired with `Except String Unit`: `Except.error` is a raised Python
exception, and the returned state is what the store has durably
committed at the moment of the raise (a failed statement is rolled back,
an already-committed one is kept).
-/

/-- A row of the `schema_migrations` ledger. -/
structure MigRecord where
  version : String
  name : String
deriving Repr, DecidableEq

/-- The store state the migration engine operates on. -/
structure MigState where
  connected : Bool
  ledgerTableExists : Bool
  ledger : List MigRecord
  tables : List String
  schemaChanges : List String
  readOk : Bool
deriving Repr, DecidableEq

/-- An SQL script handed to `run_migration`: its text and whether the
store accepts it (the environment's verdict on executing the DDL). -/
structure Sql where
  stmt : String
  ok : Bool
deriving Repr, DecidableEq

/-- The entity tables `Base.metadata` declares (`models.py`). -/
def entityTables : List String :=
  ["users", "data_analyses", "analysis_files",
   "tool_generations", "system_logs", "cache_entries"]

/-- The version does or does not have a ledger row. -/
def MigState.hasVersion (s : MigState) (v : String) : Bool :=
  s.ledger.any (fun rec => rec.version = v)

namespace DatabaseMigration

/-- `create_migrations_table`: `CREATE TABLE IF NOT EXISTS
schema_migrations ...` — unconditional, safe to repeat; raises only on
a connectivity failure. -/
def create_migrations_table (s : MigState) : MigState × Except String Unit :=
  if ¬ s.connected then (s, Except.error "connection failed")
  else ({ s with ledgerTableExists := true }, Except.ok ())

/-- The raw ledger `SELECT version FROM schema_migrations ORDER BY
version`, before the `except` of `get_applied_migrations`. -/
def ledger_select (s : MigState) : Except String (List String) :=
  if ¬ s.connected then Except.error "connection failed"
  else if ¬ s.ledgerTableExists then Except.error "no such table"
  else if ¬ s.readOk then Except.error "storage failure"
  else Except.ok (List.insertionSort (· ≤ ·) (s.ledger.map (fun rec => rec.version)))

/-- `get_applied_migrations`: the ledger's versions, and `[]` on any
failure while reading them (the `except Exception: return []`). -/
def get_applied_migrations (s : MigState) : List String :=
  match ledger_select s with
  | Except.ok versions => versions
  | Except.error _ => []

/-- Sequencing with Python exception flow: a raise aborts the rest. -/
def andThen (r : MigState × Except String Unit)
    (f : MigState → MigState × Except String Unit) :
    MigState × Except String Unit :=
  match r with
  | (s, Except.ok _) => f s
  | (s, Except.error e) => (s, Except.error e)

/-- `record_migration`: `INSERT INTO schema_migrations (version, name)`.
Raises on a connectivity failure, a missing ledger table, or a UNIQUE
violation on `version`. -/
def record_migration (s : MigState) (version name : String) :
    MigState × Except String Unit :=
  if ¬ s.connected then (s, Except.error "connection failed")
  else if ¬ s.ledgerTableExists then (s, Except.error "no such table")
  else if s.hasVersion version then (s, Except.error "unique violation")
  else ({ s with ledger := s.ledger ++ [⟨version, name⟩] }, Except.ok ())

/-- Executing and committing one migration SQL script.  A rejected
script is rolled back (state unchanged); an accepted one is committed
into `schemaChanges`. -/
def execSql (s : MigState) (q : Sql) : MigState × Except String Unit :=
  if ¬ s.connected then (s, Except.error "connection failed")
  else if ¬ q.ok then (s, Except.error ("SQL failed: " ++ q.stmt))
  else ({ s with schemaChanges := s.schemaChanges ++ [q.stmt] }, Except.ok ())

/-- `run_migration`: execute and commit the script, then record the
ledger row; any exception is logged and re-raised. -/
def run_migration (s : MigState) (version name : String) (q : Sql) :
    MigState × Except String Unit :=
  andThen (execSql s q) (fun s₁ => record_migration s₁ version name)

/-- `Base.metadata.create_all`: create every missing entity table
(checkfirst semantics); raises only on a connectivity failure. -/
def create_all (s : MigState) : MigState × Except String Unit :=
  if ¬ s.connected then (s, Except.error "connection failed")
  else ({ s with tables :=
            s.tables ++ entityTables.filter (fun t => ¬ s.tables.contains t) },
        Except.ok ())

/-- `create_initial_schema`: ensure the ledger table, create all entity
tables, then record version "001" unless it is already in the ledger. -/
def create_initial_schema (s : MigState) : MigState × Except String Unit :=
  andThen (create_migrations_table s) (fun s₁ =>
    andThen (create_all s₁) (fun s₂ =>
      if ¬ (get_applied_migrations s₂).contains "001" then
        record_migration s₂ "001" "initial_schema"
      else (s₂, Except.ok ())))

/-- The environment's verdict on the two migration SQL scripts. -/
structure MigEnv where
  indexesOk : Bool
  partitionsOk : Bool
deriving Repr, DecidableEq

/-- The `add_indexes` script (abbreviated to its first statement; the
text itself is never branched on). -/
def indexes_sql : String := "CREATE INDEX IF NOT EXISTS idx_users_username ON users(username); ..."

/-- The `add_partitions` script (abbreviated likewise). -/
def partitions_sql : String := "CREATE TABLE IF NOT EXISTS system_logs_2024_01 PARTITION OF system_logs ...; ..."

/-- `add_indexes`: migration "002" through `run_migration`. -/
def add_indexes (env : MigEnv) (s : MigState) : MigState × Except String Unit :=
  run_migration s "002" "add_performance_indexes" ⟨indexes_sql, env.indexesOk⟩

/-- `add_partitions`: migration "003" through `run_migration`. -/
def add_partitions (env : MigEnv) (s : MigState) : MigState × Except String Unit :=
  run_migration s "003" "add_table_partitions" ⟨partitions_sql, env.partitionsOk⟩

/-- `run_all_migrations`: ensure the ledger table, read the applied
versions once, then run each of the three hard-coded migrations in
order, skipping a version already applied; an exception halts the
sequence. -/
def run_all_migrations (env : MigEnv) (s : MigState) :
    MigState × Except String Unit :=
  andThen (create_migrations_table s) (fun s₁ =>
    let applied := get_applied_migrations s₁
    andThen (if applied.contains "001" then (s₁, Except.ok ())
             else create_initial_schema s₁) (fun s₂ =>
      andThen (if applied.contains "002" then (s₂, Except.ok ())
               else add_indexes env s₂) (fun s₃ =>
        if applied.contains "003" then (s₃, Except.ok ())
        else add_partitions env s₃)))

end DatabaseMigration

/-! ## Repository layer (`repositories.py`)

Each entity table is a list of rows; `datetime.utcnow()` is an explicit
`now : Nat` tick parameter.  `BaseRepository.update` merges the given
keyword fields into the row found by id (`setattr` per field, then
commit) and returns it, or returns `None` untouched when the id is
absent; `update_status` is embedded directly on top of it with the
exact `update_data` dictionary the source builds.
-/

/-- A `data_analyses` row (the fields the claims touch). -/
structure DataAnalysisRow where
  id : Nat
  user_id : Nat
  title : String
  status : String
  progress : Rat
  error_message : Option String
  created_at : Nat
  updated_at : Nat
  completed_at : Option Nat
deriving Repr, DecidableEq

/-- The keyword fields `DataAnalysisRepository.update_status` passes to
`BaseRepository.update` (absent key = attribute untouched). -/
structure DAUpdate where
  status : Option String := none
  progress : Option Rat := none
  updated_at : Option Nat := none
  completed_at : Option Nat := none
deriving Repr, DecidableEq

/-- The `setattr` loop of `BaseRepository.update` on one row. -/
def applyDAUpdate (r : DataAnalysisRow) (u : DAUpdate) : DataAnalysisRow :=
  { r with status := u.status.getD r.status,
           progress := u.progress.getD r.progress,
           updated_at := u.updated_at.getD r.updated_at,
           completed_at := u.completed_at.or r.completed_at }

/-- `BaseRepository.update` for `DataAnalysis`: find by id, merge the
fields and commit, returning the refreshed row; `None` and no write when
the id is absent. -/
def da_update (db : List DataAnalysisRow) (id : Nat) (u : DAUpdate) :
    List DataAnalysisRow × Option DataAnalysisRow :=
  match db.find? (fun r => r.id = id) with
  | none => (db, none)
  | some r =>
      (db.map (fun x => if x.id = id then applyDAUpdate x u else x),
       some (applyDAUpdate r u))

/-- `DataAnalysisRepository.update_status`: always writes `status` and
`updated_at`, writes `progress` when given, and stamps `completed_at`
when the new status is "completed". -/
def da_update_status (db : List DataAnalysisRow) (analysis_id : Nat)
    (status : String) (progress : Option Rat) (now : Nat) :
    List DataAnalysisRow × Option DataAnalysisRow :=
  let update_data : DAUpdate :=
    { status := some status,
      updated_at := some now,
      progress := progress,
      completed_at := if status = "completed" then some now else none }
  da_update db analysis_id update_data

/-- `DataAnalysisRepository.get_by_user_id`: the user's analyses with
`offset`/`limit` pagination. -/
def da_get_by_user_id (db : List DataAnalysisRow) (user_id : Nat)
    (skip : Nat := 0) (limit : Nat := 100) : List DataAnalysisRow :=
  ((db.filter (fun r => r.user_id = user_id)).drop skip).take limit

/-- A `tool_generations` row (the fields the claims touch). -/
structure ToolGenerationRow where
  id : Nat
  user_id : Nat
  tool_name : String
  status : String
  error_message : Option String
  created_at : Nat
  updated_at : Nat
  completed_at : Option Nat
deriving Repr, DecidableEq

/-- The keyword fields `ToolGenerationRepository.update_status` passes
to `BaseRepository.update`. -/
structure TGUpdate where
  status : Option String := none
  updated_at : Option Nat := none
  completed_at : Option Nat := none
deriving Repr, DecidableEq

/-- The `setattr` loop of `BaseRepository.update` on one row. -/
def applyTGUpdate (r : ToolGenerationRow) (u : TGUpdate) : ToolGenerationRow :=
  { r with status := u.status.getD r.status,
           updated_at := u.updated_at.getD r.updated_at,
           completed_at := u.completed_at.or r.completed_at }

/-- `BaseRepository.update` for `ToolGeneration`. -/
def tg_update (db : List ToolGenerationRow) (id : Nat) (u : TGUpdate) :
    List ToolGenerationRow × Option ToolGenerationRow :=
  match db.find? (fun r => r.id = id) with
  | none => (db, none)
  | some r =>
      (db.map (fun x => if x.id = id then applyTGUpdate x u else x),
       some (applyTGUpdate r u))

/-- `ToolGenerationRepository.update_status`: always writes `status` and
`updated_at`, and stamps `completed_at` when the new status is
"completed". -/
def tg_update_status (db : List ToolGenerationRow) (tool_id : Nat)
    (status : String) (now : Nat) :
    List ToolGenerationRow × Option ToolGenerationRow :=
  let update_data : TGUpdate :=
    { status := some status,
      updated_at := some now,
      completed_at := if status = "completed" then some now else none }
  tg_update db tool_id update_data

/-- `ToolGenerationRepository.get_by_user_id` with pagination. -/
def tg_get_by_user_id (db : List ToolGenerationRow) (user_id : Nat)
    (skip : Nat := 0) (limit : Nat := 100) : List ToolGenerationRow :=
  ((db.filter (fun r => r.user_id = user_id)).drop skip).take limit

/-- A `cache_entries` row (`models.py`: `key` carries a UNIQUE
constraint). -/
structure CacheEntryRow where
  id : Nat
  key : String
  value : JVal
  expires_at : Nat
  created_at : Nat

/-- `BaseRepository.create` for `CacheEntry`: `db.add` + `commit`.  The
commit enforces the UNIQUE constraint that `models.py` declares on
`key`: a duplicate raises instead of writing. -/
def ce_create (db : List CacheEntryRow) (row : CacheEntryRow) :
    Except String (List CacheEntryRow) :=
  if db.any (fun r => r.key = row.key) then Except.error "unique violation"
  else Except.ok (db ++ [row])

/-- `CacheEntryRepository.get_by_key`: the first row with this key whose
`expires_at` is strictly in the future; an expired row is not surfaced. -/
def ce_get_by_key (db : List CacheEntryRow) (key : String) (now : Nat) :
    Option CacheEntryRow :=
  db.find? (fun r => r.key = key && decide (now < r.expires_at))

/-- `CacheEntryRepository.set_cache`: compute `expires_at = now + ttl`
and insert a fresh row (`id` stands for the generated UUID). -/
def ce_set_cache (db : List CacheEntryRow) (key : String) (value : JVal)
    (ttl_seconds : Nat) (now : Nat) (id : Nat) :
    Except String (List CacheEntryRow) :=
  ce_create db { id := id, key := key, value := value,
                 expires_at := now + ttl_seconds, created_at := now }

/-- `CacheEntryRepository.cleanup_expired`: delete every row with
`expires_at <= now`, returning how many were deleted. -/
def ce_cleanup_expired (db : List CacheEntryRow) (now : Nat) :
    Nat × List CacheEntryRow :=
  ((db.filter (fun r => decide (r.expires_at ≤ now))).length,
   db.filter (fun r => ¬ r.expires_at ≤ now))

/-! ## Health check and activity summary (`migrations.py`, `utils.py`) -/

/-- The status dictionary `check_database_health` returns. -/
structure HealthResult where
  status : String
  message : String
  tables : List String
deriving Repr, DecidableEq

/-- The tables `check_database_health` requires. -/
def required_tables : List String :=
  ["users", "data_analyses", "analysis_files",
   "tool_generations", "system_logs", "cache_entries"]

/-- `check_database_health`: the `conn` argument is the store's answer
to connecting, `SELECT 1` and inspecting the table names —
`Except.error` when connectivity fails, `Except.ok tables` otherwise.
The whole body sits in `try/except Exception`, so every outcome is a
returned status dictionary (the Python list formatting of the missing
names is abstracted to a comma-separated join). -/
def check_database_health (conn : Except String (List String)) : HealthResult :=
  match conn with
  | Except.error e =>
      { status := "unhealthy",
        message := "Database connection failed: " ++ e,
        tables := [] }
  | Except.ok tables =>
      let missing := required_tables.filter (fun t => ¬ tables.contains t)
      if ¬ missing.isEmpty then
        { status := "unhealthy",
          message := "Missing tables: " ++ String.intercalate ", " missing,
          tables := tables }
      else
        { status := "healthy",
          message := "Database is healthy",
          tables := tables }

/-- The dictionary `get_user_activity_summary` returns (`last_activity`
kept as a raw tick instead of its ISO rendering). -/
structure ActivitySummary where
  total_analyses : Nat
  completed_analyses : Nat
  failed_analyses : Nat
  success_rate : Rat
  total_tools : Nat
  completed_tools : Nat
  recent_analyses : Nat
  recent_tools : Nat
  last_activity : Option Nat
deriving Repr, DecidableEq

/-- Seven days of seconds: the trailing window of `utils.py`. -/
def sevenDays : Nat := 604800

/-- `get_user_activity_summary` (`utils.py`): counts over the user's
analyses and tools as fetched by `get_by_user_id` (default pagination,
first 100), the completion percentage, trailing-7-day activity counts,
and the latest activity tick (`max` over both creation-time lists,
`None` when both are empty — `List.max?` is exactly that guard). -/
def get_user_activity_summary (dbA : List DataAnalysisRow)
    (dbT : List ToolGenerationRow) (user_id : Nat) (now : Nat) :
    ActivitySummary :=
  let analyses := da_get_by_user_id dbA user_id
  let tools := tg_get_by_user_id dbT user_id
  let total_analyses := analyses.length
  let completed_analyses := (analyses.filter (fun a => a.status = "completed")).length
  let failed_analyses := (analyses.filter (fun a => a.status = "failed")).length
  let total_tools := tools.length
  let completed_tools := (tools.filter (fun t => t.status = "completed")).length
  let last_week := now - sevenDays
  { total_analyses := total_analyses,
    completed_analyses := completed_analyses,
    failed_analyses := failed_analyses,
    success_rate :=
      if total_analyses > 0 then
        (completed_analyses : Rat) / (total_analyses : Rat) * 100
      else 0,
    total_tools := total_tools,
    completed_tools := completed_tools,
    recent_analyses := (analyses.filter (fun a => last_week ≤ a.created_at)).length,
    recent_tools := (tools.filter (fun t => last_week ≤ t.created_at)).length,
    last_activity :=
      (analyses.map (fun a => a.created_at) ++ tools.map (fun t => t.created_at)).max? }

/-! ## Helper lemmas -/

/-- `renderObj` is a by-member map. -/
theorem renderObj_eq_map (sk : Bool) (kvs : List (String × JVal)) :
    renderObj sk kvs = kvs.map (fun kv => (kv.1, renderV sk kv.2)) := by
  induction kvs with
  | nil => rfl
  | cons kv kvs ih => cases kv; simp [renderObj, ih]

/-- Sorting by key is insensitive to the input's order when the keys are
pairwise distinct: permuted member lists sort to the same list. -/
theorem sortPairs_eq_of_perm {β : Type} {l₁ l₂ : List (String × β)}
    (hp : l₁.Perm l₂) (hnd : (l₁.map Prod.fst).Nodup) :
    sortPairs l₁ = sortPairs l₂ := by
  have hs₁ : List.Sorted keyLe (sortPairs l₁) := List.sorted_insertionSort keyLe l₁
  have hs₂ : List.Sorted keyLe (sortPairs l₂) := List.sorted_insertionSort keyLe l₂
  have hp₁ : (sortPairs l₁).Perm l₁ := List.perm_insertionSort keyLe l₁
  have hp₂ : (sortPairs l₂).Perm l₂ := List.perm_insertionSort keyLe l₂
  have hperm : (sortPairs l₁).Perm (sortPairs l₂) :=
    (hp₁.trans hp).trans hp₂.symm
  -- distinct keys survive sorting
  have hnd₁ : ((sortPairs l₁).map Prod.fst).Nodup :=
    ((hp₁.map Prod.fst).nodup_iff).mpr hnd
  have hnd₂ : ((sortPairs l₂).map Prod.fst).Nodup :=
    ((hperm.symm.map Prod.fst).nodup_iff).mpr hnd₁
  -- weak sortedness plus distinct keys gives strict sortedness
  have strict : ∀ (l : List (String × β)), List.Sorted keyLe l →
      (l.map Prod.fst).Nodup → List.Sorted keyLt l := by
    intro l hs hnd'
    have hne : l.Pairwise (fun a b : String × β => a.1 ≠ b.1) :=
      (List.pairwise_map).mp hnd'
    exact (hs.and hne).imp (fun h => lt_of_le_of_ne h.1 h.2)
  exact List.eq_of_perm_of_sorted hperm
    (strict _ hs₁ hnd₁) (strict _ hs₂ hnd₂)

/-- `andThen` on a successful head runs the continuation. -/
theorem andThen_ok (s : MigState) (u : Unit)
    (f : MigState → MigState × Except String Unit) :
    DatabaseMigration.andThen (s, Except.ok u) f = f s := rfl

/-- `andThen` on a raised head propagates the exception. -/
theorem andThen_error (s : MigState) (e : String)
    (f : MigState → MigState × Except String Unit) :
    DatabaseMigration.andThen (s, Except.error e) f = (s, Except.error e) := rfl

/-- Replacing the value stored under a present key makes it the lookup
result. -/
theorem assocGet_map_replace {β : Type} (l : List (String × β)) (k : String)
    (v : β) (h : l.any (fun kv => kv.1 = k) = true) :
    assocGet (l.map (fun kv => if kv.1 = k then (k, v) else kv)) k = some v := by
  induction l with
  | nil => simp at h
  | cons kv rest ih =>
    by_cases hk : kv.1 = k
    · simp [assocGet, hk]
    · have h' : rest.any (fun kv => kv.1 = k) = true := by
        rcases List.any_eq_true.mp h with ⟨x, hx, hpx⟩
        rcases List.mem_cons.mp hx with rfl | hx'
        · exact absurd (of_decide_eq_true hpx) hk
        · exact List.any_eq_true.mpr ⟨x, hx', hpx⟩
      simpa [assocGet, hk] using ih h'

/-- Appending a binding for an absent key makes it the lookup result. -/
theorem assocGet_append_self {β : Type} (l : List (String × β)) (k : String)
    (v : β) (h : l.any (fun kv => kv.1 = k) = false) :
    assocGet (l ++ [(k, v)]) k = some v := by
  induction l with
  | nil => simp [assocGet]
  | cons kv rest ih =>
    simp only [List.any_cons, Bool.or_eq_false_iff] at h
    have hk : ¬ kv.1 = k := of_decide_eq_false h.1
    simpa [assocGet, hk] using ih h.2

/-- A Redis write is read back under the same key. -/
theorem assocGet_assocSet {β : Type} (l : List (String × β)) (k : String)
    (v : β) : assocGet (assocSet l k v) k = some v := by
  by_cases h : l.any (fun kv => kv.1 = k) = true
  · simpa [assocSet, h] using assocGet_map_replace l k v h
  · have h' : l.any (fun kv => kv.1 = k) = false := Bool.eq_false_iff.mpr h
    simpa [assocSet, h'] using assocGet_append_self l k v h'


/-! ## Claim theorems -/

/-- C4 counterexample: with the backend unreachable, `get_ttl` returns
`-1`, not a value in the claimed safe-default set false/absent/0. -/
theorem cache_get_ttl_disconnected_cex :
    RedisCache.is_connected ⟨false, [], []⟩ = false ∧
    RedisCache.get_ttl ⟨false, [], []⟩ "k" = -1 ∧ (-1 : Int) ≠ 0 :=
  ⟨rfl, rfl, by decide⟩

/-- C4 (amended): whenever `is_connected` is false, every cache
operation returns its safe default without touching the state and no
exception escapes — absent for `get`, false for `set`/`delete`/
`exists`/`expire`/`clear_all`, 0 for `clear_pattern`, and `-1` (not 0)
for `get_ttl`. -/
theorem cache_ops_disconnected_defaults (loads : String → Option JVal)
    (s : RedisState) (k : String) (v : JVal) (ttl : Int) (pat : String)
    (h : RedisCache.is_connected s = false) :
    RedisCache.get loads s k = none ∧
    RedisCache.set s k v ttl = (false, s) ∧
    RedisCache.delete s k = (false, s) ∧
    RedisCache.exists_key s k = false ∧
    RedisCache.expire s k ttl = (false, s) ∧
    RedisCache.get_ttl s k = -1 ∧
    RedisCache.clear_pattern s pat = (0, s) ∧
    RedisCache.clear_all s = (false, s) := by
  refine ⟨?_, ?_, ?_, ?_, ?_, ?_, ?_, ?_⟩ <;>
    simp [RedisCache.get, RedisCache.set, RedisCache.delete,
          RedisCache.exists_key, RedisCache.expire, RedisCache.get_ttl,
          RedisCache.clear_pattern, RedisCache.clear_all, h]

/-- C4 witness: the amended theorem at a concrete unreachable state. -/
theorem cache_ops_disconnected_defaults_witness :
    RedisCache.get (fun _ => none) ⟨false, [("k", "1")], [("k", 9)]⟩ "k" = none ∧
    RedisCache.set ⟨false, [("k", "1")], [("k", 9)]⟩ "k" JVal.jnull 60 =
      (false, ⟨false, [("k", "1")], [("k", 9)]⟩) ∧
    RedisCache.delete ⟨false, [("k", "1")], [("k", 9)]⟩ "k" =
      (false, ⟨false, [("k", "1")], [("k", 9)]⟩) ∧
    RedisCache.exists_key ⟨false, [("k", "1")], [("k", 9)]⟩ "k" = false ∧
    RedisCache.expire ⟨false, [("k", "1")], [("k", 9)]⟩ "k" 60 =
      (false, ⟨false, [("k", "1")], [("k", 9)]⟩) ∧
    RedisCache.get_ttl ⟨false, [("k", "1")], [("k", 9)]⟩ "k" = -1 ∧
    RedisCache.clear_pattern ⟨false, [("k", "1")], [("k", 9)]⟩ "*" =
      (0, ⟨false, [("k", "1")], [("k", 9)]⟩) ∧
    RedisCache.clear_all ⟨false, [("k", "1")], [("k", 9)]⟩ =
      (false, ⟨false, [("k", "1")], [("k", 9)]⟩) :=
  cache_ops_disconnected_defaults (fun _ => none)
    ⟨false, [("k", "1")], [("k", 9)]⟩ "k" JVal.jnull 60 "*" rfl

/-- C3 counterexample: `update_status` called with "running" on a record
whose status is the terminal "completed" reverts it to "running" — the
code enforces no forward monotonicity. -/
theorem update_status_reverts_terminal_cex :
    (da_update_status [⟨1, 1, "t", "completed", 1, none, 0, 0, some 0⟩]
        1 "running" none 5).1.map (fun r => r.status) = ["running"] ∧
    ("completed" : String) ≠ "running" :=
  ⟨rfl, by decide⟩

/-- C3 (amended): `update_status` (for both `DataAnalysis` and
`ToolGeneration`) writes exactly the caller-supplied status — it always
refreshes `updated_at`, stamps `completed_at` when the new status is
"completed", and performs no check of the current status, so monotonic
forward progress is a caller obligation, not enforced by the code; on an
absent id nothing is written. -/
theorem update_status_sets_given_status (dbA : List DataAnalysisRow)
    (dbT : List ToolGenerationRow) (aid tid : Nat) (st : String)
    (prog : Option Rat) (now : Nat) :
    (∀ r, dbA.find? (fun x => x.id = aid) = some r →
      (da_update_status dbA aid st prog now).2 =
        some { r with status := st,
                      progress := prog.getD r.progress,
                      updated_at := now,
                      completed_at :=
                        if st = "completed" then some now else r.completed_at }) ∧
    (dbA.find? (fun x => x.id = aid) = none →
      da_update_status dbA aid st prog now = (dbA, none)) ∧
    (∀ r, dbT.find? (fun x => x.id = tid) = some r →
      (tg_update_status dbT tid st now).2 =
        some { r with status := st,
                      updated_at := now,
                      completed_at :=
                        if st = "completed" then some now else r.completed_at }) ∧
    (dbT.find? (fun x => x.id = tid) = none →
      tg_update_status dbT tid st now = (dbT, none)) := by
  refine ⟨?_, ?_, ?_, ?_⟩
  · intro r hr
    simp only [da_update_status, da_update, hr, applyDAUpdate]
    by_cases hc : st = "completed" <;> simp [hc, Option.or]
  · intro hr
    simp [da_update_status, da_update, hr]
  · intro r hr
    simp only [tg_update_status, tg_update, hr, applyTGUpdate]
    by_cases hc : st = "completed" <;> simp [hc, Option.or]
  · intro hr
    simp [tg_update_status, tg_update, hr]

/-- C3 witness: the amended theorem at a concrete pending analysis moved
to "completed". -/
theorem update_status_sets_given_status_witness :
    (da_update_status [⟨1, 1, "t", "pending", 0, none, 0, 0, none⟩]
        1 "completed" (some 1) 9).2 =
      some ⟨1, 1, "t", "completed", 1, none, 0, 9, some 9⟩ := by
  have h := (update_status_sets_given_status
      [⟨1, 1, "t", "pending", 0, none, 0, 0, none⟩] [] 1 0 "completed"
      (some 1) 9).1 ⟨1, 1, "t", "pending", 0, none, 0, 0, none⟩ rfl
  simpa using h

/-- C9 (confirmed): `set_cache` never updates in place: with the key
already present the UNIQUE constraint on `CacheEntry.key` makes the
insert raise a constraint violation (stored value and expiry untouched),
and with the key absent it appends a fresh row with
`expires_at = now + ttl`. -/
theorem set_cache_insert_only (db : List CacheEntryRow) (key : String)
    (value : JVal) (ttl now id : Nat) :
    (db.any (fun r => r.key = key) = true →
      ce_set_cache db key value ttl now id = Except.error "unique violation") ∧
    (db.any (fun r => r.key = key) = false →
      ce_set_cache db key value ttl now id =
        Except.ok (db ++ [⟨id, key, value, now + ttl, now⟩])) := by
  constructor <;> intro h <;> simp [ce_set_cache, ce_create, h]

/-- C9 witness: a second `set_cache` under the same key raises. -/
theorem set_cache_insert_only_witness :
    ce_set_cache [⟨1, "k", JVal.jnull, 10, 0⟩] "k" (JVal.jnum 2) 5 3 2 =
      Except.error "unique violation" :=
  (set_cache_insert_only [⟨1, "k", JVal.jnull, 10, 0⟩] "k" (JVal.jnum 2)
    5 3 2).1 rfl

/-- C6 (confirmed): a durable-cache read never surfaces an expired row —
any row `get_by_key` returns expires strictly after `now` — and
`cleanup_expired` deletes exactly the rows with `expires_at ≤ now`
(a row survives iff it was present and unexpired) and returns their
count (deleted plus survivors account for every row). -/
theorem cache_entry_expiry_semantics (db : List CacheEntryRow)
    (key : String) (now : Nat) :
    (∀ r, ce_get_by_key db key now = some r → now < r.expires_at) ∧
    (ce_cleanup_expired db now).1 + (ce_cleanup_expired db now).2.length
      = db.length ∧
    (∀ r, r ∈ (ce_cleanup_expired db now).2 ↔
      r ∈ db ∧ ¬ r.expires_at ≤ now) := by
  refine ⟨?_, ?_, ?_⟩
  · intro r hr
    have h := List.find?_some hr
    simp at h
    exact h.2
  · simp only [ce_cleanup_expired]
    have hfun : (fun r : CacheEntryRow => decide ¬ (r.expires_at ≤ now))
        = (fun r => ! decide (r.expires_at ≤ now)) := by
      funext r; simp only [decide_not]
    rw [hfun]
    exact (List.length_eq_length_filter_add _).symm
  · intro r
    simp [ce_cleanup_expired, List.mem_filter]

/-- C6 witness: the theorem at a concrete store whose single row for the
key is still live at the read time. -/
theorem cache_entry_expiry_semantics_witness : (3 : Nat) < 10 :=
  (cache_entry_expiry_semantics [⟨1, "k", JVal.jnull, 10, 0⟩] "k" 3).1
    ⟨1, "k", JVal.jnull, 10, 0⟩ rfl

/-- C7 counterexample: on a connectivity failure `check_database_health`
does not throw either — the `except` clause converts it into a returned
unhealthy status with a connection-failure message and an empty table
list, so "throws only for connectivity failure" fails at this input. -/
theorem check_database_health_no_throw_cex :
    check_database_health (Except.error "connection refused") =
      { status := "unhealthy",
        message := "Database connection failed: connection refused",
        tables := [] } := rfl

/-- C7 (amended): `check_database_health` verifies connectivity, then
that each of its six required entity tables is present; it returns
healthy, or unhealthy with the missing table names and the observed
table list, and it never throws at all: a connectivity failure is also
returned, as an unhealthy status with a connection-failure message and
an empty table list. -/
theorem check_database_health_cases (conn : Except String (List String)) :
    (∀ e, conn = Except.error e → check_database_health conn =
      ⟨"unhealthy", "Database connection failed: " ++ e, []⟩) ∧
    (∀ tables, conn = Except.ok tables →
      check_database_health conn =
        if (required_tables.filter (fun t => ¬ tables.contains t)).isEmpty then
          ⟨"healthy", "Database is healthy", tables⟩
        else
          ⟨"unhealthy",
           "Missing tables: " ++ String.intercalate ", "
             (required_tables.filter (fun t => ¬ tables.contains t)),
           tables⟩) := by
  constructor
  · intro e he; subst he; rfl
  · intro tables ht; subst ht
    simp only [check_database_health]
    by_cases hm : (required_tables.filter (fun t => ¬ tables.contains t)).isEmpty
    · rw [if_neg (not_not_intro hm), if_pos hm]
    · rw [if_pos hm, if_neg hm]

/-- C7 witness: a store missing the `cache_entries` table is reported
unhealthy, naming the missing table, without an exception. -/
theorem check_database_health_cases_witness :
    check_database_health (Except.ok
        ["users", "data_analyses", "analysis_files",
         "tool_generations", "system_logs", "schema_migrations"]) =
      ⟨"unhealthy", "Missing tables: cache_entries",
       ["users", "data_analyses", "analysis_files",
        "tool_generations", "system_logs", "schema_migrations"]⟩ := by
  have h := (check_database_health_cases (Except.ok
      ["users", "data_analyses", "analysis_files",
       "tool_generations", "system_logs", "schema_migrations"])).2
      ["users", "data_analyses", "analysis_files",
       "tool_generations", "system_logs", "schema_migrations"] rfl
  rw [h]
  decide

/-- C8 counterexample: with one completed analysis out of two the
reported rate is `50`, not `completed/total = 1/2`: the code reports a
percentage, one hundred times the claimed ratio. -/
theorem success_rate_percentage_cex :
    (get_user_activity_summary
        [⟨1, 1, "a", "completed", 1, none, 0, 0, some 0⟩,
         ⟨2, 1, "b", "pending", 0, none, 0, 0, none⟩] [] 1 0).success_rate
      = 50 ∧ (50 : Rat) ≠ 1 / 2 := by
  constructor
  · simp [get_user_activity_summary, da_get_by_user_id, tg_get_by_user_id]
    norm_num
  · norm_num

/-- C8 (amended): the per-user rate equals
`completed / total * 100` — a percentage — over the analyses
`get_by_user_id` fetches, equals zero when that total is zero, and the
computation is total (never a division fault). -/
theorem success_rate_formula (dbA : List DataAnalysisRow)
    (dbT : List ToolGenerationRow) (uid now : Nat) :
    ((get_user_activity_summary dbA dbT uid now).total_analyses = 0 →
      (get_user_activity_summary dbA dbT uid now).success_rate = 0) ∧
    (0 < (get_user_activity_summary dbA dbT uid now).total_analyses →
      (get_user_activity_summary dbA dbT uid now).success_rate =
        ((get_user_activity_summary dbA dbT uid now).completed_analyses : Rat) /
          ((get_user_activity_summary dbA dbT uid now).total_analyses : Rat)
          * 100) := by
  constructor
  · intro h
    simp only [get_user_activity_summary] at h ⊢
    rw [if_neg (by omega)]
  · intro h
    simp only [get_user_activity_summary] at h ⊢
    rw [if_pos h]

/-- C8 witness: the amended formula at the two-analyses store. -/
theorem success_rate_formula_witness :
    (get_user_activity_summary
        [⟨1, 1, "a", "completed", 1, none, 0, 0, some 0⟩,
         ⟨2, 1, "b", "pending", 0, none, 0, 0, none⟩] [] 1 0).success_rate =
      ((get_user_activity_summary
          [⟨1, 1, "a", "completed", 1, none, 0, 0, some 0⟩,
           ⟨2, 1, "b", "pending", 0, none, 0, 0, none⟩] [] 1 0).completed_analyses : Rat) /
        ((get_user_activity_summary
            [⟨1, 1, "a", "completed", 1, none, 0, 0, some 0⟩,
             ⟨2, 1, "b", "pending", 0, none, 0, 0, none⟩] [] 1 0).total_analyses : Rat)
        * 100 :=
  (success_rate_formula
      [⟨1, 1, "a", "completed", 1, none, 0, 0, some 0⟩,
       ⟨2, 1, "b", "pending", 0, none, 0, 0, none⟩] [] 1 0).2
    (by simp [get_user_activity_summary, da_get_by_user_id])

/-- C1 (confirmed): `run_migration` is atomic around the change step —
if executing the change fails (store unreachable or SQL rejected) the
state is untouched, in particular no ledger row appears, and the
exception is re-raised; and any ledger row it leaves behind that was not
already present can exist only when the change itself committed
successfully. -/
theorem run_migration_atomicity (s : MigState) (version name : String)
    (q : Sql) :
    (¬ (s.connected = true ∧ q.ok = true) →
      (DatabaseMigration.run_migration s version name q).1 = s ∧
      ∃ e, (DatabaseMigration.run_migration s version name q).2 =
        Except.error e) ∧
    (∀ rec, rec ∈ (DatabaseMigration.run_migration s version name q).1.ledger →
      rec ∈ s.ledger ∨
        (s.connected = true ∧ q.ok = true ∧
         (DatabaseMigration.run_migration s version name q).1.schemaChanges =
           s.schemaChanges ++ [q.stmt])) := by
  cases hc : s.connected
  · constructor
    · intro _
      simp [DatabaseMigration.run_migration, DatabaseMigration.execSql,
            DatabaseMigration.andThen, hc]
    · intro rec hrec
      simp [DatabaseMigration.run_migration, DatabaseMigration.execSql,
            DatabaseMigration.andThen, hc] at hrec
      exact Or.inl hrec
  · cases hq : q.ok
    · constructor
      · intro _
        simp [DatabaseMigration.run_migration, DatabaseMigration.execSql,
              DatabaseMigration.andThen, hc, hq]
      · intro rec hrec
        simp [DatabaseMigration.run_migration, DatabaseMigration.execSql,
              DatabaseMigration.andThen, hc, hq] at hrec
        exact Or.inl hrec
    · constructor
      · intro h
        exact absurd ⟨rfl, rfl⟩ h
      · intro rec hrec
        cases hl : s.ledgerTableExists <;>
          cases hv : s.ledger.any (fun r => r.version = version) <;>
          simp [DatabaseMigration.run_migration, DatabaseMigration.execSql,
                DatabaseMigration.record_migration, DatabaseMigration.andThen,
                MigState.hasVersion, hc, hq, hl, hv] at hrec
        · exact Or.inl hrec
        · exact Or.inl hrec
        · rcases hrec with h | h
          · exact Or.inl h
          · exact Or.inr ⟨rfl, rfl, by
              simp [DatabaseMigration.run_migration, DatabaseMigration.execSql,
                    DatabaseMigration.record_migration, DatabaseMigration.andThen,
                    MigState.hasVersion, hc, hq, hl, hv]⟩
        · exact Or.inl hrec

/-- C1 witness: a rejected SQL script leaves the state (and ledger)
unchanged and raises. -/
theorem run_migration_atomicity_witness :
    (DatabaseMigration.run_migration ⟨true, true, [], [], [], true⟩
        "002" "add_performance_indexes" ⟨"CREATE INDEX", false⟩).1 =
      ⟨true, true, [], [], [], true⟩ ∧
    ∃ e, (DatabaseMigration.run_migration ⟨true, true, [], [], [], true⟩
        "002" "add_performance_indexes" ⟨"CREATE INDEX", false⟩).2 =
      Except.error e :=
  (run_migration_atomicity ⟨true, true, [], [], [], true⟩
      "002" "add_performance_indexes" ⟨"CREATE INDEX", false⟩).1
    (by simp)

/-- C10 (confirmed): `get_applied_migrations` never raises — on any
ledger-read failure (store unreachable, ledger table missing, or any
other storage failure) it returns the empty list — and consequently a
`run_all_migrations` whose ledger reads fail treats every migration as
pending: on a fresh store it executes and records all three. -/
theorem get_applied_migrations_total_default (s : MigState)
    (env : DatabaseMigration.MigEnv) :
    (¬ (s.connected = true ∧ s.ledgerTableExists = true ∧ s.readOk = true) →
      DatabaseMigration.get_applied_migrations s = []) ∧
    (s.readOk = false → s.connected = true → s.ledger = [] →
      env.indexesOk = true → env.partitionsOk = true →
      (DatabaseMigration.run_all_migrations env s).2 = Except.ok () ∧
      (DatabaseMigration.run_all_migrations env s).1.hasVersion "001" = true ∧
      (DatabaseMigration.run_all_migrations env s).1.hasVersion "002" = true ∧
      (DatabaseMigration.run_all_migrations env s).1.hasVersion "003" = true ∧
      (DatabaseMigration.run_all_migrations env s).1.schemaChanges =
        s.schemaChanges ++
          [DatabaseMigration.indexes_sql, DatabaseMigration.partitions_sql]) := by
  constructor
  · intro h
    cases hc : s.connected <;> cases hl : s.ledgerTableExists
      <;> cases hr : s.readOk
      <;> simp_all [DatabaseMigration.get_applied_migrations,
                    DatabaseMigration.ledger_select]
  · intro hro hc hled hi hp
    obtain ⟨c, lt, led, tb, sc, ro⟩ := s
    obtain ⟨i, p⟩ := env
    simp only at hro hc hled hi hp
    subst hro hc hled hi hp
    refine ⟨?_, ?_, ?_, ?_, ?_⟩ <;>
      simp [DatabaseMigration.run_all_migrations, DatabaseMigration.andThen,
            DatabaseMigration.create_migrations_table,
            DatabaseMigration.get_applied_migrations,
            DatabaseMigration.ledger_select,
            DatabaseMigration.create_initial_schema,
            DatabaseMigration.create_all,
            DatabaseMigration.record_migration,
            DatabaseMigration.add_indexes, DatabaseMigration.add_partitions,
            DatabaseMigration.run_migration, DatabaseMigration.execSql,
            MigState.hasVersion]

/-- C10 witness: the read-failure default and the all-pending re-run at
a concrete fresh store with failing ledger reads. -/
theorem get_applied_migrations_total_default_witness :
    (DatabaseMigration.run_all_migrations ⟨true, true⟩
        ⟨true, false, [], [], [], false⟩).2 = Except.ok () ∧
    (DatabaseMigration.run_all_migrations ⟨true, true⟩
        ⟨true, false, [], [], [], false⟩).1.hasVersion "001" = true ∧
    (DatabaseMigration.run_all_migrations ⟨true, true⟩
        ⟨true, false, [], [], [], false⟩).1.hasVersion "002" = true ∧
    (DatabaseMigration.run_all_migrations ⟨true, true⟩
        ⟨true, false, [], [], [], false⟩).1.hasVersion "003" = true ∧
    (DatabaseMigration.run_all_migrations ⟨true, true⟩
        ⟨true, false, [], [], [], false⟩).1.schemaChanges =
      [] ++ [DatabaseMigration.indexes_sql, DatabaseMigration.partitions_sql] :=
  (get_applied_migrations_total_default ⟨true, false, [], [], [], false⟩
      ⟨true, true⟩).2 rfl rfl rfl rfl rfl

/-- C5 (confirmed): for parameter dictionaries holding equal key-value
sets in any insertion order, `cache_api_response` and
`get_cached_api_response` derive the identical cache key — the
`sort_keys=True` serialization of the parameters coincides — so a set
with one ordering followed by a get with the other reads exactly the
payload the set wrote. -/
theorem api_cache_key_order_independent (md5hex : String → String)
    (loads : String → Option JVal) (s : RedisState) (endpoint : String)
    (p₁ p₂ : List (String × JVal)) (v : JVal) (ttl : Int)
    (hperm : p₁.Perm p₂) (hnd : (p₁.map Prod.fst).Nodup)
    (hc : s.connected = true) :
    renderV true (JVal.jobj p₁) = renderV true (JVal.jobj p₂) ∧
    get_cached_api_response md5hex loads
        (cache_api_response md5hex s endpoint p₁ v ttl).2 endpoint p₂ =
      (if renderV false v = "" then none else loads (renderV false v)) := by
  have hmap : (renderObj true p₁).Perm (renderObj true p₂) := by
    rw [renderObj_eq_map, renderObj_eq_map]
    exact hperm.map _
  have hnd' : ((renderObj true p₁).map Prod.fst).Nodup := by
    rw [renderObj_eq_map]
    have : (List.map (fun kv => (kv.1, renderV true kv.2)) p₁).map Prod.fst
        = p₁.map Prod.fst := by
      simp [List.map_map, Function.comp]
    rw [this]; exact hnd
  have hkey : renderV true (JVal.jobj p₁) = renderV true (JVal.jobj p₂) := by
    have hsort := sortPairs_eq_of_perm hmap hnd'
    simp [renderV, hsort]
  refine ⟨hkey, ?_⟩
  simp only [get_cached_api_response, cache_api_response, ← hkey]
  simp only [RedisCache.set, RedisCache.get, RedisCache.is_connected, hc]
  simp [assocGet_assocSet]

/-- C5 witness: `{a: 1, b: 2}` cached, then read back as `{b: 2, a: 1}`. -/
theorem api_cache_key_order_independent_witness :
    renderV true (JVal.jobj [("a", JVal.jnum 1), ("b", JVal.jnum 2)])
      = renderV true (JVal.jobj [("b", JVal.jnum 2), ("a", JVal.jnum 1)]) ∧
    get_cached_api_response (fun d => d) (fun _ => some JVal.jnull)
        (cache_api_response (fun d => d) ⟨true, [], []⟩ "users"
          [("a", JVal.jnum 1), ("b", JVal.jnum 2)] (JVal.jnum 7) 300).2
        "users" [("b", JVal.jnum 2), ("a", JVal.jnum 1)] =
      (if renderV false (JVal.jnum 7) = "" then none
       else (fun _ => some JVal.jnull) (renderV false (JVal.jnum 7))) :=
  api_cache_key_order_independent (fun d => d) (fun _ => some JVal.jnull)
    ⟨true, [], []⟩ "users"
    [("a", JVal.jnum 1), ("b", JVal.jnum 2)]
    [("b", JVal.jnum 2), ("a", JVal.jnum 1)]
    (JVal.jnum 7) 300
    (List.Perm.swap ("b", JVal.jnum 2) ("a", JVal.jnum 1) [])
    (by simp) rfl

/-- Under readable-ledger conditions, membership in the applied-versions
list is exactly a ledger row for that version. -/
theorem get_applied_contains_iff {s : MigState} (hc : s.connected = true)
    (hl : s.ledgerTableExists = true) (hr : s.readOk = true) (v : String) :
    (DatabaseMigration.get_applied_migrations s).contains v = true ↔
      s.hasVersion v = true := by
  simp only [DatabaseMigration.get_applied_migrations,
             DatabaseMigration.ledger_select, hc, hl, hr]
  rw [if_neg (by simp), if_neg (by simp), if_neg (by simp)]
  simp [List.elem_iff, List.mem_insertionSort, MigState.hasVersion,
        List.any_eq_true, List.mem_map]

/-- `record_migration`: fields preserved, ledger only grows, and on
success the store was reachable, the ledger table existed, and the new
version has a row. -/
theorem record_migration_facts (s : MigState) (ver nm : String) :
    (DatabaseMigration.record_migration s ver nm).1.connected = s.connected ∧
    (DatabaseMigration.record_migration s ver nm).1.readOk = s.readOk ∧
    (DatabaseMigration.record_migration s ver nm).1.ledgerTableExists
      = s.ledgerTableExists ∧
    (∀ v, s.hasVersion v = true →
      (DatabaseMigration.record_migration s ver nm).1.hasVersion v = true) ∧
    ((DatabaseMigration.record_migration s ver nm).2 = Except.ok () →
      s.connected = true ∧ s.ledgerTableExists = true ∧
      (DatabaseMigration.record_migration s ver nm).1.hasVersion ver = true) := by
  simp only [DatabaseMigration.record_migration]
  split_ifs with h1 h2 h3 <;>
    refine ⟨rfl, rfl, rfl, ?_, ?_⟩ <;>
    simp_all [MigState.hasVersion, List.any_append]

/-- `execSql`: everything but the change log is untouched. -/
theorem execSql_facts (s : MigState) (q : Sql) :
    (DatabaseMigration.execSql s q).1.connected = s.connected ∧
    (DatabaseMigration.execSql s q).1.readOk = s.readOk ∧
    (DatabaseMigration.execSql s q).1.ledgerTableExists = s.ledgerTableExists ∧
    (DatabaseMigration.execSql s q).1.ledger = s.ledger := by
  simp only [DatabaseMigration.execSql]
  split_ifs <;> exact ⟨rfl, rfl, rfl, rfl⟩

/-- `run_migration`: fields preserved, ledger only grows, and on success
the version has a ledger row. -/
theorem run_migration_facts (s : MigState) (ver nm : String) (q : Sql) :
    (DatabaseMigration.run_migration s ver nm q).1.connected = s.connected ∧
    (DatabaseMigration.run_migration s ver nm q).1.readOk = s.readOk ∧
    (DatabaseMigration.run_migration s ver nm q).1.ledgerTableExists
      = s.ledgerTableExists ∧
    (∀ v, s.hasVersion v = true →
      (DatabaseMigration.run_migration s ver nm q).1.hasVersion v = true) ∧
    ((DatabaseMigration.run_migration s ver nm q).2 = Except.ok () →
      (DatabaseMigration.run_migration s ver nm q).1.hasVersion ver = true) := by
  simp only [DatabaseMigration.run_migration]
  rcases hex : DatabaseMigration.execSql s q with ⟨s₁, e⟩
  have hf := execSql_facts s q
  rw [hex] at hf
  obtain ⟨hfc, hfr, hfl, hfg⟩ := hf
  have hver : ∀ v, s₁.hasVersion v = s.hasVersion v := by
    intro v
    show (s₁.ledger.any fun rec => rec.version = v) = _
    rw [show s₁.ledger = s.ledger from hfg]
    rfl
  cases e with
  | error e =>
    rw [andThen_error]
    exact ⟨hfc, hfr, hfl, fun v hv => (hver v).trans hv,
           fun h => by simp at h⟩
  | ok u =>
    cases u
    rw [andThen_ok]
    have hr := record_migration_facts s₁ ver nm
    obtain ⟨hrc, hrr, hrl, hrg, hrok⟩ := hr
    refine ⟨hrc.trans hfc, hrr.trans hfr, hrl.trans hfl, ?_, ?_⟩
    · intro v hv
      exact hrg v (by rw [hver v]; exact hv)
    · intro hok
      exact (hrok hok).2.2

/-- `create_migrations_table`: connectivity and ledger data untouched;
on success the store was reachable and the ledger table exists. -/
theorem create_migrations_table_facts (s : MigState) :
    (DatabaseMigration.create_migrations_table s).1.connected = s.connected ∧
    (DatabaseMigration.create_migrations_table s).1.readOk = s.readOk ∧
    (DatabaseMigration.create_migrations_table s).1.ledger = s.ledger ∧
    ((DatabaseMigration.create_migrations_table s).2 = Except.ok () →
      s.connected = true ∧
      (DatabaseMigration.create_migrations_table s).1.ledgerTableExists = true) := by
  simp only [DatabaseMigration.create_migrations_table]
  split_ifs with h <;> simp_all

/-- `Base.metadata.create_all`: only the entity-table set changes. -/
theorem create_all_facts (s : MigState) :
    (DatabaseMigration.create_all s).1.connected = s.connected ∧
    (DatabaseMigration.create_all s).1.readOk = s.readOk ∧
    (DatabaseMigration.create_all s).1.ledgerTableExists = s.ledgerTableExists ∧
    (DatabaseMigration.create_all s).1.ledger = s.ledger := by
  simp only [DatabaseMigration.create_all]
  split_ifs with h <;> exact ⟨rfl, rfl, rfl, rfl⟩

/-- `create_initial_schema`: connectivity preserved, ledger only grows,
and on success (under a readable ledger) the ledger table exists and
version "001" has a row. -/
theorem create_initial_schema_facts (s : MigState) (hro : s.readOk = true) :
    (DatabaseMigration.create_initial_schema s).1.connected = s.connected ∧
    (DatabaseMigration.create_initial_schema s).1.readOk = s.readOk ∧
    (∀ v, s.hasVersion v = true →
      (DatabaseMigration.create_initial_schema s).1.hasVersion v = true) ∧
    ((DatabaseMigration.create_initial_schema s).2 = Except.ok () →
      (DatabaseMigration.create_initial_schema s).1.ledgerTableExists = true ∧
      (DatabaseMigration.create_initial_schema s).1.hasVersion "001" = true) := by
  simp only [DatabaseMigration.create_initial_schema]
  rcases h1 : DatabaseMigration.create_migrations_table s with ⟨s₁, e₁⟩
  have f1 := create_migrations_table_facts s
  rw [h1] at f1
  obtain ⟨f1c, f1r, f1g, f1ok⟩ := f1
  have hver₁ : ∀ v, s₁.hasVersion v = s.hasVersion v := by
    intro v
    show (s₁.ledger.any fun rec => rec.version = v) = _
    rw [show s₁.ledger = s.ledger from f1g]
    rfl
  cases e₁ with
  | error e =>
    rw [andThen_error]
    exact ⟨f1c, f1r, fun v hv => (hver₁ v).trans hv, fun h => by simp at h⟩
  | ok u =>
    cases u
    rw [andThen_ok]
    obtain ⟨hc, hlt⟩ := f1ok rfl
    rcases h2 : DatabaseMigration.create_all s₁ with ⟨s₂, e₂⟩
    have f2 := create_all_facts s₁
    rw [h2] at f2
    obtain ⟨f2c, f2r, f2l, f2g⟩ := f2
    have hver₂ : ∀ v, s₂.hasVersion v = s.hasVersion v := by
      intro v
      rw [← hver₁ v]
      show (s₂.ledger.any fun rec => rec.version = v) = _
      rw [show s₂.ledger = s₁.ledger from f2g]
      rfl
    cases e₂ with
    | error e =>
      rw [andThen_error]
      exact ⟨f2c.trans f1c, f2r.trans f1r,
             fun v hv => (hver₂ v).trans hv, fun h => by simp at h⟩
    | ok u =>
      cases u
      rw [andThen_ok]
      have hc₂ : s₂.connected = true := f2c.trans (f1c.trans hc)
      have hl₂ : s₂.ledgerTableExists = true := f2l.trans hlt
      have hr₂ : s₂.readOk = true := f2r.trans (f1r.trans hro)
      by_cases hb : (DatabaseMigration.get_applied_migrations s₂).contains "001" = true
      · rw [if_neg (not_not_intro hb)]
        refine ⟨f2c.trans f1c, f2r.trans f1r,
                fun v hv => (hver₂ v).trans hv, ?_⟩
        intro _
        exact ⟨hl₂, (get_applied_contains_iff hc₂ hl₂ hr₂ "001").mp hb⟩
      · rw [if_pos hb]
        have fr := record_migration_facts s₂ "001" "initial_schema"
        obtain ⟨frc, frr, frl, frg, frok⟩ := fr
        refine ⟨frc.trans (f2c.trans f1c), frr.trans (f2r.trans f1r), ?_, ?_⟩
        · intro v hv
          exact frg v (by rw [hver₂ v]; exact hv)
        · intro hok
          obtain ⟨-, c2, c3⟩ := frok hok
          exact ⟨frl.trans hl₂, c3⟩

/-- Python exception flow through `andThen`: overall success splits into
success of the head and of the continuation on the head's state. -/
theorem andThen_ok_split {r : MigState × Except String Unit}
    {f : MigState → MigState × Except String Unit} {t : MigState}
    (h : DatabaseMigration.andThen r f = (t, Except.ok ())) :
    r.2 = Except.ok () ∧ f r.1 = (t, Except.ok ()) := by
  rcases r with ⟨m, e⟩
  cases e with
  | error e => simp [DatabaseMigration.andThen] at h
  | ok u => cases u; exact ⟨rfl, by simpa [DatabaseMigration.andThen] using h⟩

/-- One loop step of `run_all_migrations` for a `run_migration`-backed
migration: if it ends in `ok`, the resulting state keeps connectivity,
keeps the ledger table, keeps reading, holds the step's version, and
holds every version the incoming state held.  The skip test consults the
applied list read at `s₁`, before the loop. -/
theorem mig_step_facts {s₁ u : MigState} (ver nm : String) (q : Sql)
    (hc₁ : s₁.connected = true) (hl₁ : s₁.ledgerTableExists = true)
    (hr₁ : s₁.readOk = true)
    (hmono : ∀ v, s₁.hasVersion v = true → u.hasVersion v = true)
    (hcu : u.connected = true) (hlu : u.ledgerTableExists = true)
    (hru : u.readOk = true)
    (hok : (if (DatabaseMigration.get_applied_migrations s₁).contains ver
            then (u, Except.ok ())
            else DatabaseMigration.run_migration u ver nm q).2 = Except.ok ()) :
    (if (DatabaseMigration.get_applied_migrations s₁).contains ver
     then (u, Except.ok ())
     else DatabaseMigration.run_migration u ver nm q).1.connected = true ∧
    (if (DatabaseMigration.get_applied_migrations s₁).contains ver
     then (u, Except.ok ())
     else DatabaseMigration.run_migration u ver nm q).1.ledgerTableExists = true ∧
    (if (DatabaseMigration.get_applied_migrations s₁).contains ver
     then (u, Except.ok ())
     else DatabaseMigration.run_migration u ver nm q).1.readOk = true ∧
    (if (DatabaseMigration.get_applied_migrations s₁).contains ver
     then (u, Except.ok ())
     else DatabaseMigration.run_migration u ver nm q).1.hasVersion ver = true ∧
    (∀ v, u.hasVersion v = true →
      (if (DatabaseMigration.get_applied_migrations s₁).contains ver
       then (u, Except.ok ())
       else DatabaseMigration.run_migration u ver nm q).1.hasVersion v = true) := by
  by_cases hb : (DatabaseMigration.get_applied_migrations s₁).contains ver = true
  · simp only [if_pos hb]
    exact ⟨hcu, hlu, hru,
      hmono ver ((get_applied_contains_iff hc₁ hl₁ hr₁ ver).mp hb),
      fun v hv => hv⟩
  · simp only [if_neg hb] at hok ⊢
    have fr := run_migration_facts u ver nm q
    obtain ⟨frc, frr, frl, frg, frok⟩ := fr
    exact ⟨frc.trans hcu, frl.trans hlu, frr.trans hru, frok hok, frg⟩

/-- One loop step for the "001" baseline migration, analogously. -/
theorem init_step_facts {s₁ : MigState}
    (hc₁ : s₁.connected = true) (hl₁ : s₁.ledgerTableExists = true)
    (hr₁ : s₁.readOk = true)
    (hok : (if (DatabaseMigration.get_applied_migrations s₁).contains "001"
            then (s₁, Except.ok ())
            else DatabaseMigration.create_initial_schema s₁).2 = Except.ok ()) :
    (if (DatabaseMigration.get_applied_migrations s₁).contains "001"
     then (s₁, Except.ok ())
     else DatabaseMigration.create_initial_schema s₁).1.connected = true ∧
    (if (DatabaseMigration.get_applied_migrations s₁).contains "001"
     then (s₁, Except.ok ())
     else DatabaseMigration.create_initial_schema s₁).1.ledgerTableExists = true ∧
    (if (DatabaseMigration.get_applied_migrations s₁).contains "001"
     then (s₁, Except.ok ())
     else DatabaseMigration.create_initial_schema s₁).1.readOk = true ∧
    (if (DatabaseMigration.get_applied_migrations s₁).contains "001"
     then (s₁, Except.ok ())
     else DatabaseMigration.create_initial_schema s₁).1.hasVersion "001" = true ∧
    (∀ v, s₁.hasVersion v = true →
      (if (DatabaseMigration.get_applied_migrations s₁).contains "001"
       then (s₁, Except.ok ())
       else DatabaseMigration.create_initial_schema s₁).1.hasVersion v = true) := by
  by_cases hb : (DatabaseMigration.get_applied_migrations s₁).contains "001" = true
  · simp only [if_pos hb]
    exact ⟨hc₁, hl₁, hr₁,
      (get_applied_contains_iff hc₁ hl₁ hr₁ "001").mp hb, fun v hv => hv⟩
  · simp only [if_neg hb] at hok ⊢
    have fi := create_initial_schema_facts s₁ hr₁
    obtain ⟨fic, fir, fig, fiok⟩ := fi
    obtain ⟨c2, c3⟩ := fiok hok
    exact ⟨fic.trans hc₁, c2, fir.trans hr₁, c3, fig⟩

/-- After a successful `run_all_migrations` over a readable ledger, the
final state is connected, has the ledger table, still reads, and holds a
ledger row for each of the three hard-coded versions. -/
theorem run_all_ok_facts (env : DatabaseMigration.MigEnv) (s t : MigState)
    (hrun : DatabaseMigration.run_all_migrations env s = (t, Except.ok ()))
    (hro : s.readOk = true) :
    t.connected = true ∧ t.ledgerTableExists = true ∧ t.readOk = true ∧
    t.hasVersion "001" = true ∧ t.hasVersion "002" = true ∧
    t.hasVersion "003" = true := by
  simp only [DatabaseMigration.run_all_migrations] at hrun
  obtain ⟨h1ok, hrun⟩ := andThen_ok_split hrun
  have f1 := create_migrations_table_facts s
  obtain ⟨f1c, f1r, f1g, f1ok⟩ := f1
  obtain ⟨hc, hl₁⟩ := f1ok h1ok
  have hc₁ : (DatabaseMigration.create_migrations_table s).1.connected = true :=
    f1c.trans hc
  have hr₁ : (DatabaseMigration.create_migrations_table s).1.readOk = true :=
    f1r.trans hro
  obtain ⟨h2ok, hrun⟩ := andThen_ok_split hrun
  have st2 := init_step_facts hc₁ hl₁ hr₁ h2ok
  obtain ⟨hc₂, hl₂, hr₂, hv001₂, hmono₂⟩ := st2
  obtain ⟨h3ok, hrun⟩ := andThen_ok_split hrun
  simp only [DatabaseMigration.add_indexes] at h3ok
  have st3 := mig_step_facts "002" "add_performance_indexes"
    ⟨DatabaseMigration.indexes_sql, env.indexesOk⟩
    hc₁ hl₁ hr₁ hmono₂ hc₂ hl₂ hr₂ h3ok
  obtain ⟨hc₃, hl₃, hr₃, hv002₃, hmono₃⟩ := st3
  simp only [DatabaseMigration.add_indexes] at hrun
  simp only [DatabaseMigration.add_partitions] at hrun
  have h4ok := congrArg Prod.snd hrun
  have h4st := congrArg Prod.fst hrun
  have st4 := mig_step_facts "003" "add_table_partitions"
    ⟨DatabaseMigration.partitions_sql, env.partitionsOk⟩
    hc₁ hl₁ hr₁ (fun v hv => hmono₃ v (hmono₂ v hv)) hc₃ hl₃ hr₃ h4ok
  obtain ⟨hc₄, hl₄, hr₄, hv003₄, hmono₄⟩ := st4
  rw [h4st] at hc₄ hl₄ hr₄ hv003₄ hmono₄
  exact ⟨hc₄, hl₄, hr₄,
         hmono₄ "001" (hmono₃ "001" hv001₂),
         hmono₄ "002" hv002₃,
         hv003₄⟩

/-- A state that already holds all three versions, with a readable
ledger, makes `run_all_migrations` a pure no-op: every migration is
skipped and the state is returned unchanged with success. -/
theorem run_all_skips (env : DatabaseMigration.MigEnv) (t : MigState)
    (hc : t.connected = true) (hl : t.ledgerTableExists = true)
    (hr : t.readOk = true) (h1 : t.hasVersion "001" = true)
    (h2 : t.hasVersion "002" = true) (h3 : t.hasVersion "003" = true) :
    DatabaseMigration.run_all_migrations env t = (t, Except.ok ()) := by
  have hstep : DatabaseMigration.create_migrations_table t = (t, Except.ok ()) := by
    obtain ⟨c, lt, led, tb, sc, ro⟩ := t
    simp only at hc hl
    subst hc; subst hl
    simp [DatabaseMigration.create_migrations_table]
  have hm1 : "001" ∈ DatabaseMigration.get_applied_migrations t :=
    List.elem_iff.mp ((get_applied_contains_iff hc hl hr "001").mpr h1)
  have hm2 : "002" ∈ DatabaseMigration.get_applied_migrations t :=
    List.elem_iff.mp ((get_applied_contains_iff hc hl hr "002").mpr h2)
  have hm3 : "003" ∈ DatabaseMigration.get_applied_migrations t :=
    List.elem_iff.mp ((get_applied_contains_iff hc hl hr "003").mpr h3)
  simp [DatabaseMigration.run_all_migrations, DatabaseMigration.andThen,
        hstep, hm1, hm2, hm3]

/-- C2 (confirmed): immediately after a successful `run_all_migrations`
(with the ledger readable), running it again — under any environment
verdict on the SQL scripts — applies zero additional migrations: every
version is found in the ledger and skipped without executing its change
function, and the state (ledger included) is returned unchanged with
success. -/
theorem run_all_migrations_idempotent (env env' : DatabaseMigration.MigEnv)
    (s : MigState)
    (hok : (DatabaseMigration.run_all_migrations env s).2 = Except.ok ())
    (hro : s.readOk = true) :
    DatabaseMigration.run_all_migrations env'
        (DatabaseMigration.run_all_migrations env s).1 =
      ((DatabaseMigration.run_all_migrations env s).1, Except.ok ()) := by
  have hrun : DatabaseMigration.run_all_migrations env s =
      ((DatabaseMigration.run_all_migrations env s).1, Except.ok ()) := by
    rw [← hok]
  obtain ⟨hc, hl, hr, h1, h2, h3⟩ := run_all_ok_facts env s _ hrun hro
  exact run_all_skips env' _ hc hl hr h1 h2 h3

/-- C2 witness: a first run from a fresh reachable store succeeds, and
the immediate second run is a no-op on the resulting state. -/
theorem run_all_migrations_idempotent_witness :
    DatabaseMigration.run_all_migrations ⟨false, false⟩
        (DatabaseMigration.run_all_migrations ⟨true, true⟩
          ⟨true, false, [], [], [], true⟩).1 =
      ((DatabaseMigration.run_all_migrations ⟨true, true⟩
          ⟨true, false, [], [], [], true⟩).1, Except.ok ()) :=
  run_all_migrations_idempotent ⟨true, true⟩ ⟨false, false⟩
    ⟨true, false, [], [], [], true⟩ (by rfl) rfl
